import Mathlib

/-!
Verification of the label-studio-schema repository.

This file gives a shallow embedding, in Lean 4, of the Python code in
`src/label_studio_schema` (the XML attribute serializer in `tools/convert.py`,
the runtime `BaseTag.xml` renderer in `base.py`, the comment-to-schema
extraction pipeline in `tools/parse.py`, and the XML pretty-printing
diagnostics in `tools/format.py`), together with theorems settling the
specification's claims about that code.

Python strings are modelled as Lean `String` (all data handled by the
repository is ASCII); Python dictionaries as association lists preserving
insertion order; Python sets of strings as lists with membership; fallible
Python code as `Except`.
-/

namespace LabelStudioSchema

/-! ## A model of the Python values the serializer observes

`into_xml` only ever observes a value through `v is not None`, its
truthiness `bool(v)`, `isinstance(v, bool)`, and its f-string rendering
`str(v)`.  We model the value universe accordingly.  A float is modelled by
its shortest-repr decimal string (what Python's `str()` prints) together
with its truthiness, since those are the only observations made of it. -/

inductive PyVal where
  | none
  | bool (b : Bool)
  | str (s : String)
  | int (n : Int)
  | float (rep : String) (nonzero : Bool)
  deriving DecidableEq, Repr

/-- `v is None` -/
def PyVal.isNone : PyVal → Bool
  | .none => true
  | _ => false

/-- `isinstance(v, bool)` -/
def PyVal.isBool : PyVal → Bool
  | .bool _ => true
  | _ => false

/-- Python truthiness `bool(v)`: `None` and `False` are falsy, a string is
truthy iff non-empty, a number is truthy iff non-zero. -/
def PyVal.truthy : PyVal → Bool
  | .none => false
  | .bool b => b
  | .str s => s ≠ ""
  | .int n => n ≠ 0
  | .float _ nz => nz

/-- Python `str(v)` / f-string rendering of a value. -/
def PyVal.pyStr : PyVal → String
  | .none => "None"
  | .bool b => if b then "True" else "False"
  | .str s => s
  | .int n => toString n
  | .float rep _ => rep

/-! ## Python string primitives used by the source

These model the exact `str` methods the repository calls, at the level of
character lists (ASCII inputs). -/

/-- The characters Python's default `str.strip()` removes (ASCII whitespace:
space, tab, LF, CR, VT, FF). -/
def pyIsSpace (c : Char) : Bool :=
  c = ' ' || c = '\t' || c = '\n' || c = '\r' || c = '\x0b' || c = '\x0c'

/-- Strip characters satisfying `p` from both ends of a character list. -/
def stripBy (p : Char → Bool) (l : List Char) : List Char :=
  ((l.dropWhile p).reverse.dropWhile p).reverse

/-- Python `s.strip()` (default whitespace stripping). -/
def pyStrip (s : String) : String :=
  String.mk (stripBy pyIsSpace s.data)

/-- Python `s.strip(chars)`: strip any character of `chars` from both ends. -/
def pyStripChars (chars : String) (s : String) : String :=
  String.mk (stripBy (fun c => chars.data.contains c) s.data)

/-- Python `sep.join(parts)`. -/
def pyJoin (sep : String) : List String → String
  | [] => ""
  | [x] => x
  | x :: xs => x ++ sep ++ pyJoin sep xs

/-- Python `s.split(sep)` for a single-character separator: splits on every
occurrence, keeping empty segments (so the result is never empty). -/
def pySplitChar (sep : Char) : List Char → List (List Char)
  | [] => [[]]
  | c :: cs =>
    if c = sep then [] :: pySplitChar sep cs
    else
      match pySplitChar sep cs with
      | [] => [[c]]
      | seg :: segs => (c :: seg) :: segs

/-- Python `s.endswith(".")` for one-character suffixes. -/
def endsWithChar (c : Char) (s : String) : Bool :=
  s.data.getLast? = some c

/-- Python `s.replace(old, new)` for one-character arguments. -/
def pyReplaceChar (old new : Char) (s : String) : String :=
  String.mk (s.data.map (fun c => if c = old then new else c))

/-- Python `sub in s` (substring containment) specialised to what the source
needs: does `s` contain the character `c`? -/
def containsChar (c : Char) (s : String) : Bool :=
  s.data.contains c

/-! ## `tools/convert.py` -/

/-- `str_from_bool(value, lower=True)`:
`return str(value).lower() if lower else str(value).upper()`. -/
def str_from_bool (value : Bool) (lower : Bool) : String :=
  if lower then String.mk ((PyVal.bool value).pyStr.data.map Char.toLower)
  else String.mk ((PyVal.bool value).pyStr.data.map Char.toUpper)

/-- One segment of `snake2camel`: `w.capitalize() if n else w.lower()`.
Python's `str.capitalize` upper-cases the first character and lower-cases
the rest; `str.lower` lower-cases every character (ASCII model). -/
def pyCapitalize (w : List Char) : List Char :=
  match w with
  | [] => []
  | c :: rest => Char.toUpper c :: rest.map Char.toLower

/-- `snake2camel(s)`:
`"".join(w.capitalize() if n else w.lower() for n, w in enumerate(s.split("_")))`. -/
def snake2camel (s : String) : String :=
  String.mk
    (match pySplitChar '_' s.data with
     | [] => []
     | w :: ws => (w.map Char.toLower ++ (ws.map pyCapitalize).flatten))

/-- The body of the `into_xml` loop for one dictionary item: emit
`f'{k}="{v}"'` when `v is not None and (v or isinstance(v, bool)) and
k not in ignore`, converting the key with `snake2camel` and a boolean value
with `str_from_bool`. -/
def intoXmlItem (ignore : List String) (kv : String × PyVal) : Option String :=
  if !kv.2.isNone && (kv.2.truthy || kv.2.isBool) && !(ignore.contains kv.1) then
    some (snake2camel kv.1 ++ "=\"" ++
      (if kv.2.isBool then str_from_bool (kv.2 = PyVal.bool true) true
       else kv.2.pyStr) ++ "\"")
  else Option.none

/-- `into_xml(model_dict, ignore)`: the accumulating loop over the
dictionary items in insertion order.  (The source line
`ignore = set(list(ignore)) or set()` is a no-op on membership: rebuilding
the set does not change it, and the `or set()` branch is only taken when the
set is already empty.) -/
def into_xml (model_dict : List (String × PyVal)) (ignore : List String) :
    List String :=
  model_dict.filterMap (intoXmlItem ignore)

/-! ## `base.py` -/

/-- The element-formatting expression of `BaseTag.xml` (base.py line 29):
`f"<{self.__class__.__name__}{(' ' + ' '.join(fields) if fields else '')} />"`. -/
def xmlElement (className : String) (fields : List String) : String :=
  "<" ++ className ++ (if fields ≠ [] then " " ++ pyJoin " " fields else "") ++ " />"

/-- A Python-call model for `into_xml`, which declares two parameters
(`model_dict` and `ignore`) neither of which has a default value.  Calling
it with the second argument missing raises `TypeError` before the function
body runs; we model the second argument slot as an `Option`. -/
def call_into_xml (model_dict : List (String × PyVal))
    (ignoreArg : Option (List String)) : Except String (List String) :=
  match ignoreArg with
  | some ig => .ok (into_xml model_dict ig)
  | Option.none =>
    .error "TypeError: into_xml() missing 1 required positional argument: ignore"

/-- `BaseTag.xml(self, no_defaults=False)` (base.py lines 15-29): the source
calls `into_xml(self.model_dump(exclude_defaults=no_defaults))` with a
single positional argument — the `ignore` argument is not supplied — and
then formats the element string.  `dump` stands for the result of
`self.model_dump(...)`. -/
def BaseTag_xml (className : String) (dump : List (String × PyVal)) :
    Except String String :=
  (call_into_xml dump Option.none).map (xmlElement className)

/-- The §8 round-trip input `{name: "rect1", toName: "img", opacity: 0.6}`
in that insertion order. -/
def rectDict : List (String × PyVal) :=
  [("name", PyVal.str "rect1"), ("toName", PyVal.str "img"),
   ("opacity", PyVal.float "0.6" true)]

/-- Spec-side inclusion predicate, following the §4.5 wording: a field is
included iff its value is not absent AND (its value is truthy OR its value
is specifically a boolean) AND its identifier is not in the ignore set. -/
def specXmlInclude (ignore : List String) (kv : String × PyVal) : Bool :=
  !kv.2.isNone && (kv.2.truthy || kv.2.isBool) && !(ignore.contains kv.1)

/-- Spec-side rendering, following the §4.5 wording: the identifier is
camel-cased, a boolean value is stringified as lowercase `true`/`false`,
other values by their natural string representation, with no escaping. -/
def specXmlRender (kv : String × PyVal) : String :=
  snake2camel kv.1 ++ "=\"" ++
    (match kv.2 with
     | .bool b => if b then "true" else "false"
     | v => v.pyStr) ++ "\""

/-! ## `tools/parse.py`: type conversion and field rendering -/

/-- The double-quote character (`"`). -/
def quoteChar : Char := Char.ofNat 34

/-- The single-quote character (`'`). -/
def apostChar : Char := Char.ofNat 39

/-- The opening-brace character. -/
def openBrace : Char := Char.ofNat 123

/-- The closing-brace character. -/
def closeBrace : Char := Char.ofNat 125

/-- Wrap a string in double quotes, Python's `f'"{x}"'`. -/
def quoted (s : String) : String :=
  String.mk (quoteChar :: s.data ++ [quoteChar])

/-- The `TYPE_CONVERT` dictionary of parse.py (insertion order kept). -/
def TYPE_CONVERT : List (String × String) :=
  [("string", "str"), ("number", "int"), ("float", "float"),
   ("boolean", "bool"), ("array", "list"), ("object", "dict"),
   ("function", "Callable"), ("null", "None")]

/-- `TYPE_CONVERT.get(t, "str")`. -/
def tcGet (t : String) : String :=
  (TYPE_CONVERT.lookup t).getD "str"

/-- `t in TYPE_CONVERT` (key membership). -/
def tcHas (t : String) : Bool :=
  (TYPE_CONVERT.lookup t).isSome

/-- `convert_arg_types(type_list, is_optional, arg_default)` (parse.py lines
39-77).  The default starts as the string captured by `make_args`; the
boolean branch turns it into an actual Python boolean, which we model with
`PyVal`.  Note the Python expression
`arg_default == "true" and arg_default != "false"` evaluates to a `bool` in
both outcomes of the short-circuit. -/
def convert_arg_types (type_list : List String) (is_optional : Bool)
    (arg_default : String) : PyVal × String :=
  let arg_types := pyJoin "|" (type_list.map tcGet)
  let d1 : PyVal :=
    if arg_types = "bool" && is_optional then
      .bool ((arg_default == "true") && !(arg_default == "false"))
    else if arg_types = "str" && is_optional then
      .str (if arg_default ≠ "..." ∧ arg_default ≠ "None" then quoted arg_default
            else arg_default)
    else .str arg_default
  if !(type_list.all tcHas) then
    (.str (quoted d1.pyStr),
     (if is_optional then "Optional[" else "") ++ "Literal[" ++
       pyJoin ", " (type_list.map quoted) ++ "]" ++
       (if is_optional then "]" else ""))
  else if is_optional then (d1, "Optional[" ++ arg_types ++ "]")
  else (d1, arg_types)

/-- `INDENT` (four spaces). -/
def INDENT : String := "    "

/-- The literal-enumeration ("closed enumeration") form of a resolved type
expression: the rendered type begins with `Literal[`, or with
`Optional[Literal[` in the optional-wrapped variant. -/
def takesLiteralForm (s : String) : Prop :=
  (∃ r, s.data = "Literal[".data ++ r) ∨
    (∃ r, s.data = "Optional[Literal[".data ++ r)

/-- One `TAG_ARG_RGX.findall` tuple: capture groups
(type, identifier, default-with-leading-`=`-or-empty, trailing description). -/
abbrev ArgTuple := String × String × String × String

/-- `arg_name` cleanup in `make_args`: `str(arg_name).strip()`. -/
def makeArgName (t : ArgTuple) : String := pyStrip t.2.1

/-- `arg_desc` cleanup in `make_args`:
`str(arg_desc).strip().strip("- ").replace('"', "'")`, then a trailing
period is appended when missing. -/
def makeArgDesc (t : ArgTuple) : String :=
  let d := pyReplaceChar quoteChar apostChar (pyStripChars "- " (pyStrip t.2.2.2))
  if endsWithChar '.' d then d else d ++ "."

/-- `is_opt: bool = "=" in arg_default`. -/
def makeIsOpt (t : ArgTuple) : Bool := containsChar '=' t.2.2.1

/-- `arg_default = str(arg_default).strip("=").strip() if arg_default else
("None" if is_opt else "...")`. -/
def makeDefault (t : ArgTuple) : String :=
  if t.2.2.1 ≠ "" then pyStrip (pyStripChars "=" t.2.2.1)
  else if makeIsOpt t then "None" else "..."

/-- `_types = [t.strip("=") for t in arg_type.split("|")]`. -/
def makeTypes (t : ArgTuple) : List String :=
  (pySplitChar '|' t.1.data).map (fun w => pyStripChars "=" (String.mk w))

/-- The resolved (default, type) pair for one findall tuple: the
`convert_arg_types` call on line 106 of parse.py with the preprocessed
arguments. -/
def resolveArg (t : ArgTuple) : PyVal × String :=
  convert_arg_types (makeTypes t) (makeIsOpt t) (makeDefault t)

/-- One rendered field line (parse.py line 109):
`f'{INDENT}{arg_name}: {arg_types} = Field({arg_default}, description="{arg_desc}")'`. -/
def makeArgLine (t : ArgTuple) : String :=
  INDENT ++ makeArgName t ++ ": " ++ (resolveArg t).2 ++ " = Field(" ++
    (resolveArg t).1.pyStr ++ ", description=" ++ quoted (makeArgDesc t) ++ ")"

/-- `make_args(args)`: one rendered line per tuple, in input order. -/
def make_args (args : List ArgTuple) : List String := args.map makeArgLine

/-! ## `tools/parse.py`: the regular-expression searches

The three `@`-marker searches (`@name(.*)`, `@meta_title(.*)`,
`@meta_description(.*)`) are leftmost-occurrence searches whose capture is
the remainder of the line.  `TAG_ARG_RGX` is a line-oriented pattern; its
matching at a fixed position is deterministic (no character class overlaps
the delimiter that follows it), so `findall` is leftmost, non-overlapping
scanning. -/

/-- Leftmost occurrence of `pat`; returns the text after it. -/
def findSub (pat : List Char) : List Char → Option (List Char)
  | [] => if pat = [] then some [] else Option.none
  | l@(_ :: t) =>
    if pat.isPrefixOf l then some (l.drop pat.length) else findSub pat t

/-- `re.search(marker + "(.*)", s)` restricted to the fixed markers the
source uses: leftmost occurrence of the marker, capture up to end of line
(`.` does not match a newline). -/
def reSearchCapture (pat : String) (s : String) : Option String :=
  (findSub pat.data s.data).map
    (fun rest => String.mk (rest.takeWhile (fun c => c ≠ '\n')))

/-- Character class `[-a-zA-Z0-9|]` of `TAG_ARG_RGX` group 1. -/
def isTypeTokChar (c : Char) : Bool :=
  c = '-' || ('a' ≤ c && c ≤ 'z') || ('A' ≤ c && c ≤ 'Z') ||
    ('0' ≤ c && c ≤ '9') || c = '|'

/-- `\w` (ASCII model). -/
def isWordChar (c : Char) : Bool :=
  ('a' ≤ c && c ≤ 'z') || ('A' ≤ c && c ≤ 'Z') || ('0' ≤ c && c ≤ '9') || c = '_'

/-- Character class `[a-zA-Z-0-9.#:]` of `TAG_ARG_RGX` group 3 (letters,
digits, and the literals `-`, `.`, `#`, `:`). -/
def isDefaultChar (c : Char) : Bool :=
  ('a' ≤ c && c ≤ 'z') || ('A' ≤ c && c ≤ 'Z') || ('0' ≤ c && c ≤ '9') ||
    c = '-' || c = '.' || c = '#' || c = ':'

/-- Literal-prefix chomp. -/
def chompPre (pat l : List Char) : Option (List Char) :=
  if pat.isPrefixOf l then some (l.drop pat.length) else Option.none

/-- One attempted match of
`@param\s\{([-a-zA-Z0-9|]+=?)\}\s\[?(\w+)(=[a-zA-Z-0-9.#:]+)?\]?(.*)\n`
at the head of `l`.  Returns the four capture groups and the remaining
input after the consumed match.  Greedy classes followed by delimiters
outside the class make the match deterministic. -/
def argMatchAt (l : List Char) : Option (ArgTuple × List Char) := do
  let r1 ← chompPre "@param".data l
  match r1 with
  | [] => Option.none
  | c :: r2 =>
    if !pyIsSpace c then Option.none else
    match r2 with
    | [] => Option.none
    | b :: r3 =>
      if b ≠ openBrace then Option.none else
      let g1a := r3.takeWhile isTypeTokChar
      if g1a = [] then Option.none else
      let r4 := r3.drop g1a.length
      let (g1, r5) :=
        match r4 with
        | '=' :: r => (g1a ++ ['='], r)
        | _ => (g1a, r4)
      match r5 with
      | [] => Option.none
      | d :: r6 =>
        if d ≠ closeBrace then Option.none else
        match r6 with
        | [] => Option.none
        | e :: r7 =>
          if !pyIsSpace e then Option.none else
          let r8 := match r7 with | '[' :: r => r | _ => r7
          let g2 := r8.takeWhile isWordChar
          if g2 = [] then Option.none else
          let r9 := r8.drop g2.length
          let (g3, r10) :=
            match r9 with
            | '=' :: r =>
              let d1 := r.takeWhile isDefaultChar
              if d1 = [] then (([] : List Char), r9)
              else ('=' :: d1, r.drop d1.length)
            | _ => ([], r9)
          let r11 := match r10 with | ']' :: r => r | _ => r10
          let g4 := r11.takeWhile (fun c => c ≠ '\n')
          let r12 := r11.drop g4.length
          match r12 with
          | '\n' :: r13 =>
            some ((String.mk g1, String.mk g2, String.mk g3, String.mk g4), r13)
          | _ => Option.none

/-- The `findall` scan: leftmost matches, resuming after each consumed
match; the fuel (initially the input length) only bounds the recursion. -/
def argFindallGo : Nat → List Char → List ArgTuple
  | 0, _ => []
  | _ + 1, [] => []
  | fuel + 1, l@(_ :: cs) =>
    match argMatchAt l with
    | some (t, rest) => t :: argFindallGo fuel rest
    | Option.none => argFindallGo fuel cs

/-- `TAG_ARG_RGX.findall(s)`. -/
def argFindall (s : String) : List ArgTuple :=
  argFindallGo s.data.length s.data

/-! ## `tools/parse.py`: the per-comment emission step of `main()`

`main()` iterates over files; for each file whose text contains a
documentation comment, lines 160-199 decide whether a schema class text
is emitted for it.  `processComment stem g` models that per-comment step:
`g` is the `MULTILINE_COMMENT` capture (group 1) and `stem` the file stem;
the result is `some text_out` exactly when the source appends a class block
for this file.  (The `@name` search result on lines 164-165 is computed by
the source but never used afterwards, so it is not modelled.) -/

/-- Lines 161-162: strip the captured comment, then append a newline when
it does not already end with one. -/
def normComment (g : String) : String :=
  let c := pyStrip g
  c ++ (if endsWithChar '\n' c then "" else "\n")

/-- Lines 167-173: the `@meta_title` walrus-`if`.  The bound variable is
the match object (`Option`); when it matched, the title becomes the
stripped capture with a period appended unless the whole matched text
(`group()`, i.e. the marker plus the capture) already ends with one. -/
def metaTitleOf (comment : String) : Option String :=
  (reSearchCapture "@meta_title" comment).map
    (fun cap =>
      pyStrip cap ++
        (if endsWithChar '.' ("@meta_title" ++ cap) then "" else "."))

/-- Python truthiness of a possibly-`None` string variable. -/
def pyTruthyOpt : Option String → Bool
  | Option.none => false
  | some s => s != ""

/-- f-string rendering of a possibly-`None` string variable (`None` prints
as `"None"`). -/
def renderOptStr : Option String → String
  | Option.none => "None"
  | some s => s

/-- `comment.splitlines()[0]`: the text before the first line terminator
(the strings this is applied to always end in `\n`, so the index is in
range). -/
def firstLineOf (s : String) : String :=
  String.mk (s.data.takeWhile (fun c => c ≠ '\n' && c ≠ '\r'))

/-- Lines 160-199 of parse.py for one captured comment `g` of a file with
stem `stem`: the emission decision and the emitted class text.  Everything
below the `@meta_description` walrus-`if` — including the `findall` of the
parameter lines and the class-text emission — only runs when that search
matched. -/
def processComment (stem : String) (g : String) : Option String :=
  let comment := normComment g
  let metaTitle := metaTitleOf comment
  match reSearchCapture "@meta_description" comment with
  | Option.none => Option.none
  | some cap =>
    let metaDesc := pyStrip cap
    let args := argFindall comment
    let argBlock := if args ≠ [] then pyJoin "\n" (make_args args) else ""
    if argBlock ≠ "" then
      let title :=
        if !(pyTruthyOpt metaTitle || (metaDesc != "")) then
          pyStrip (pyStripChars "*" (firstLineOf comment))
        else renderOptStr metaTitle
      let docStr :=
        if metaDesc ≠ "" then
          INDENT ++ "\"\"\"\n" ++ INDENT ++ title ++ "\n\n" ++ INDENT ++
            metaDesc ++ "\n" ++ INDENT ++ "\"\"\"\n"
        else
          INDENT ++ "\"\"\"\n" ++ INDENT ++ title ++ "\n" ++ INDENT ++ "\"\"\"\n"
      some ("class " ++ stem ++ "Tag(BaseModel):\n" ++ docStr ++ argBlock ++ "\n")
    else Option.none

/-! ## `tools/format.py`

`format_xml_string` delegates parsing to the standard library's
`xml.dom.minidom.parseString` and pretty-printing to `toprettyxml`.  The
standard library is not part of this repository; we model it for
element-and-text documents without attributes, declarations or comments
(sufficient for the diagnostic inputs the spec names): a recursive-descent
well-formedness parser returning `Except` (every `minidom` parse failure is
an `ExpatError`, which the source catches), and the `writexml`
pretty-printer with indent per depth, `newl="\n"`, a leading
`<?xml version="1.0" ?>` declaration line, self-closing empty elements and
inlined single-text children. -/

inductive XNode where
  | elem (name : String) (children : List XNode)
  | text (s : String)

/-- Element-name characters in the model (letters and digits). -/
def isNameChar (c : Char) : Bool :=
  ('a' ≤ c && c ≤ 'z') || ('A' ≤ c && c ≤ 'Z') || ('0' ≤ c && c ≤ '9')

mutual

/-- Parse one element at the head of the input: `<name/>` or
`<name>children</name>`. -/
def parseElemF : Nat → List Char → Except String (XNode × List Char)
  | 0, _ => .error "internal error: out of fuel"
  | fuel + 1, l =>
    match l with
    | '<' :: r =>
      let nm := r.takeWhile isNameChar
      if nm = [] then .error "not well-formed (invalid token)" else
      let r1 := (r.drop nm.length).dropWhile pyIsSpace
      match r1 with
      | '/' :: '>' :: r2 => .ok (.elem (String.mk nm) [], r2)
      | '>' :: r2 =>
        match parseNodesF fuel r2 with
        | .error e => .error e
        | .ok (cs, r3) =>
          match r3 with
          | '<' :: '/' :: r4 =>
            if nm.isPrefixOf r4 then
              match r4.drop nm.length with
              | '>' :: r5 => .ok (.elem (String.mk nm) cs, r5)
              | _ => .error "not well-formed (invalid token)"
            else .error "mismatched tag"
          | _ => .error "mismatched tag"
      | _ => .error "not well-formed (invalid token)"
    | _ => .error "syntax error"

/-- Parse a run of child nodes up to a closing tag: text runs and nested
elements; reaching the end of input inside an element is an error. -/
def parseNodesF : Nat → List Char → Except String (List XNode × List Char)
  | 0, _ => .error "internal error: out of fuel"
  | fuel + 1, l =>
    let txt := l.takeWhile (fun c => c ≠ '<')
    let r := l.drop txt.length
    let nodes0 : List XNode := if txt = [] then [] else [.text (String.mk txt)]
    match r with
    | '<' :: '/' :: _ => .ok (nodes0, r)
    | '<' :: _ =>
      match parseElemF fuel r with
      | .error e => .error e
      | .ok (n, r2) =>
        match parseNodesF fuel r2 with
        | .error e => .error e
        | .ok (ns, r3) => .ok (nodes0 ++ n :: ns, r3)
    | _ => .error "no element found"

end

/-- `xml.dom.minidom.parseString` model: optional surrounding whitespace,
one document element, nothing else. -/
def parseXmlDoc (s : String) : Except String XNode :=
  let l := s.data.dropWhile pyIsSpace
  match parseElemF (l.length + 2) l with
  | .error e => .error e
  | .ok (root, rest) =>
    if rest.dropWhile pyIsSpace = [] then .ok root
    else .error "junk after document element"

mutual

/-- `writexml` in pretty mode for one node at indentation `ind` with
per-level indent `add`: a text node is `ind ++ data ++ newl`; an element
with no children self-closes; a single text child is inlined; otherwise the
children are written one level deeper. -/
def prettyNode (ind add : String) : XNode → String
  | .text s => ind ++ s ++ "\n"
  | .elem n cs =>
    match cs with
    | [] => ind ++ "<" ++ n ++ "/>" ++ "\n"
    | [.text s] => ind ++ "<" ++ n ++ ">" ++ s ++ "</" ++ n ++ ">" ++ "\n"
    | _ =>
      ind ++ "<" ++ n ++ ">" ++ "\n" ++ prettyNodes (ind ++ add) add cs ++
        ind ++ "</" ++ n ++ ">" ++ "\n"

/-- The concatenated pretty prints of a child list. -/
def prettyNodes (ind add : String) : List XNode → String
  | [] => ""
  | n :: ns => prettyNode ind add n ++ prettyNodes ind add ns

end

/-- `dom.toprettyxml(indent=" " * indent_size)`: the XML declaration line
followed by the pretty-printed document element. -/
def toprettyxml (root : XNode) (indent_size : Nat) : String :=
  "<?xml version=\"1.0\" ?>" ++ "\n" ++
    prettyNode "" (String.mk (List.replicate indent_size ' ')) root

/-- Python `s.splitlines()` for strings whose line terminators are LF
(true of all strings this model feeds it: `toprettyxml` output uses
`newl="\n"`). -/
def splitLFGo (acc : List Char) : List Char → List (List Char)
  | [] => [acc.reverse]
  | c :: cs =>
    if c = '\n' then
      match cs with
      | [] => [acc.reverse]
      | _ => acc.reverse :: splitLFGo [] cs
    else splitLFGo (c :: acc) cs

/-- `s.splitlines()` (LF model; the empty string yields no lines). -/
def pySplitlines (s : String) : List String :=
  if s.data = [] then [] else (splitLFGo [] s.data).map String.mk

/-- `clean_lines(s)` (format.py lines 5-20):
`"\n".join([line.strip() for line in s.splitlines() if line.strip()])`. -/
def clean_lines (s : String) : String :=
  pyJoin "\n" (((pySplitlines s).map pyStrip).filter (fun line => line ≠ ""))

/-- `format_xml_string(xml_string, indent_size=4)` (format.py lines
23-47): parse, pretty-print and clean; a parse failure is caught and
returned as a descriptive string (`f"Error parsing XML: {e}"`), never
propagated. -/
def format_xml_string (xml_string : String) (indent_size : Nat) : String :=
  match parseXmlDoc xml_string with
  | .ok dom => clean_lines (toprettyxml dom indent_size)
  | .error e => "Error parsing XML: " ++ e

/-! ## Theorems -/

/-- C1, counterexample: for the input mapping
`{name: "rect1", toName: "img", opacity: 0.6}` with an empty ignore set, the
serializer's attribute list wrapped as a `RectangleTag` element does NOT
equal `<RectangleTag name="rect1" toName="img" opacity="0.6" />`: the claim
as stated is false, because `snake2camel` lower-cases the first
underscore-segment, which for the underscore-free key `toName` is the whole
key. -/
theorem c1_roundtrip_counterexample :
    xmlElement "RectangleTag" (into_xml rectDict []) ≠
      "<RectangleTag name=\"rect1\" toName=\"img\" opacity=\"0.6\" />" := by
  decide

/-- C1, amended: the wrapped serializer output for that input equals
`<RectangleTag name="rect1" toname="img" opacity="0.6" />` — attribute order
is the input order, snake_case keys are converted to camelCase, but a key
that is already camelCase is not left unchanged: its first
underscore-segment (the whole key when no underscore is present) is
lower-cased, so `toName` is emitted as `toname`. -/
theorem c1_roundtrip_amended :
    xmlElement "RectangleTag" (into_xml rectDict []) =
      "<RectangleTag name=\"rect1\" toname=\"img\" opacity=\"0.6\" />" := by
  decide

/-! ## Character-level facts about `snake2camel`

`snake2camel` splits on underscores and re-joins case-mapped segments, so
its output never contains an underscore; hence a key containing an
underscore is never equal to its own camel-case conversion. -/

theorem char_toNat_ofNat (n : Nat) (h : n < 55296) : (Char.ofNat n).toNat = n := by
  unfold Char.ofNat
  rw [dif_pos (Or.inl h)]
  rfl

theorem toLower_eq_underscore {c : Char} (h : c.toLower = '_') : c = '_' := by
  unfold Char.toLower at h
  simp only [ge_iff_le] at h
  split at h
  · exfalso
    rename_i hr
    have hv : (Char.ofNat (c.toNat + 32)).toNat = c.toNat + 32 :=
      char_toNat_ofNat _ (by omega)
    have h2 := congrArg Char.toNat h
    rw [hv] at h2
    have h3 : ('_').toNat = 95 := by decide
    omega
  · exact h

theorem toUpper_eq_underscore {c : Char} (h : c.toUpper = '_') : c = '_' := by
  unfold Char.toUpper at h
  simp only [ge_iff_le] at h
  split at h
  · exfalso
    rename_i hr
    have hv : (Char.ofNat (c.toNat - 32)).toNat = c.toNat - 32 :=
      char_toNat_ofNat _ (by omega)
    have h2 := congrArg Char.toNat h
    rw [hv] at h2
    have h3 : ('_').toNat = 95 := by decide
    omega
  · exact h

theorem pySplitChar_no_sep (sep : Char) (l : List Char) :
    ∀ seg ∈ pySplitChar sep l, sep ∉ seg := by
  induction l with
  | nil =>
    intro seg hseg
    simp [pySplitChar] at hseg
    simp [hseg]
  | cons c cs ih =>
    intro seg hseg
    by_cases hc : c = sep
    · simp [pySplitChar, hc] at hseg
      rcases hseg with h | h
      · simp [h]
      · exact ih seg h
    · simp only [pySplitChar, if_neg hc] at hseg
      rcases hrec : pySplitChar sep cs with _ | ⟨s, ss⟩
      · rw [hrec] at hseg
        simp at hseg
        simp [hseg]
        exact fun h => hc h.symm
      · rw [hrec] at hseg
        simp at hseg
        rcases hseg with h | h
        · subst h
          intro hmem
          rcases List.mem_cons.mp hmem with h | h
          · exact hc h.symm
          · exact ih s (by rw [hrec]; exact List.mem_cons_self s ss) h
        · exact ih seg (by rw [hrec]; exact List.mem_cons_of_mem s h)

theorem snake2camel_no_underscore (s : String) :
    '_' ∉ (snake2camel s).data := by
  unfold snake2camel
  rcases hsplit : pySplitChar '_' s.data with _ | ⟨w, ws⟩
  · simp
  · simp only [List.mem_append]
    intro hmem
    rcases hmem with h | h
    · rcases List.mem_map.mp h with ⟨c, hc, hlow⟩
      have hcw : c = '_' := toLower_eq_underscore hlow
      have : '_' ∉ w := by
        have := pySplitChar_no_sep '_' s.data w
          (by rw [hsplit]; exact List.mem_cons_self w ws)
        exact this
      exact this (hcw ▸ hc)
    · rcases List.mem_flatten.mp h with ⟨seg, hseg, hin⟩
      rcases List.mem_map.mp hseg with ⟨orig, horig, hcap⟩
      have hno : '_' ∉ orig :=
        pySplitChar_no_sep '_' s.data orig
          (by rw [hsplit]; exact List.mem_cons_of_mem w horig)
      subst hcap
      rcases horig2 : orig with _ | ⟨c0, rest⟩
      · simp [pyCapitalize, horig2] at hin
      · rw [horig2] at hin
        simp only [pyCapitalize] at hin
        rcases List.mem_cons.mp hin with h | h
        · have : c0 = '_' := toUpper_eq_underscore h.symm
          exact hno (by rw [horig2]; exact this ▸ List.mem_cons_self c0 rest)
        · rcases List.mem_map.mp h with ⟨c, hc, hlow⟩
          have : c = '_' := toLower_eq_underscore hlow
          exact hno (by rw [horig2]; exact List.mem_cons_of_mem c0 (this ▸ hc))

theorem underscore_key_ne_camel {k : String} (h : '_' ∈ k.data) :
    k ≠ snake2camel k := by
  intro heq
  exact snake2camel_no_underscore k (by rw [← heq]; exact h)

/-! ## Claims C8 and C10 -/

theorem str_from_bool_lower (b : Bool) :
    str_from_bool b true = (if b then "true" else "false") := by
  cases b <;> decide

theorem intoXmlItem_eq_spec (ignore : List String) (kv : String × PyVal) :
    intoXmlItem ignore kv =
      if specXmlInclude ignore kv then some (specXmlRender kv) else Option.none := by
  rcases kv with ⟨k, v⟩
  by_cases hig : ignore.contains k = true
  all_goals rcases v with _ | b | s | n | ⟨rep, nz⟩
  all_goals try (rcases b)
  all_goals simp_all [intoXmlItem, specXmlInclude, specXmlRender, PyVal.isNone,
    PyVal.isBool, PyVal.truthy, PyVal.pyStr, str_from_bool_lower]

/-- C8: the XML Attribute Serializer includes a field iff its value is not
`None` AND (truthy OR boolean) AND its key is not in the ignore set; each
included field is rendered as `camelKey="value"` with booleans stringified
as lowercase `true`/`false`.  In particular boolean `false` is emitted as
`key="false"`, an empty-string value is never emitted, and a key in the
ignore set is never emitted regardless of value. -/
theorem c8_inclusion_render (m : List (String × PyVal)) (ig : List String) :
    into_xml m ig = (m.filter (specXmlInclude ig)).map specXmlRender ∧
    (∀ k, into_xml [(k, PyVal.bool false)] ig =
      if ig.contains k then [] else [snake2camel k ++ "=\"false\""]) ∧
    (∀ k, into_xml [(k, PyVal.str "")] ig = []) ∧
    (∀ k, into_xml [(k, PyVal.none)] ig = []) ∧
    (∀ k v, into_xml [(k, v)] (k :: ig) = []) := by
  refine ⟨?_, ?_, ?_, ?_, ?_⟩
  · induction m with
    | nil => rfl
    | cons kv rest ih =>
      simp only [into_xml, List.filterMap_cons, intoXmlItem_eq_spec, List.filter_cons]
      by_cases h : specXmlInclude ig kv
      · simp [h, into_xml] at ih ⊢
        exact ih
      · simp [h, into_xml] at ih ⊢
        exact ih
  · intro k
    by_cases h : k ∈ ig
    · have hc : ig.contains k = true := by simpa using h
      simp [into_xml, intoXmlItem, hc, h]
    · have hc : ig.contains k = false := by simpa using h
      simp [into_xml, intoXmlItem, PyVal.isNone, PyVal.isBool, PyVal.truthy, hc,
        h, str_from_bool_lower]
      rw [String.append_assoc, String.append_assoc]
      rfl
  · intro k
    simp [into_xml, intoXmlItem, PyVal.isNone, PyVal.isBool, PyVal.truthy]
  · intro k
    simp [into_xml, intoXmlItem, PyVal.isNone]
  · intro k v
    simp [into_xml, intoXmlItem]

/-- C10: the serializer tests ignore-set membership against the original,
pre-conversion key.  For any mapping entry whose key contains an underscore
and whose value qualifies for emission, putting only the camel-case form of
that key in the ignore set does not suppress the field: it is still emitted
under its camel-case name. -/
theorem c10_ignore_preconversion (m : List (String × PyVal)) (k : String)
    (v : PyVal) (hmem : (k, v) ∈ m) (hus : '_' ∈ k.data)
    (hq : (!v.isNone && (v.truthy || v.isBool)) = true) :
    (snake2camel k ++ "=\"" ++
      (if v.isBool then str_from_bool (v = PyVal.bool true) true else v.pyStr) ++
      "\"") ∈ into_xml m [snake2camel k] := by
  apply List.mem_filterMap.mpr
  refine ⟨(k, v), hmem, ?_⟩
  have hne : k ≠ snake2camel k := underscore_key_ne_camel hus
  have hcon : ([snake2camel k].contains k) = false := by
    simp [List.contains, hne]
  have hcond :
      (!v.isNone && (v.truthy || v.isBool) && !([snake2camel k].contains k)) = true := by
    rw [hcon]
    simp only [Bool.not_false, Bool.and_true]
    exact hq
  simp [intoXmlItem, hcond]
  simp at hq
  exact ⟨hq.1, hq.2, hne⟩

/-- Witness for C10 at a concrete input: the key `to_name` with camel form
`toName` in the ignore set is still emitted. -/
theorem c10_ignore_preconversion_witness :
    ("toName=\"img\"") ∈ into_xml [("to_name", PyVal.str "img")] ["toName"] := by
  have h := c10_ignore_preconversion [("to_name", PyVal.str "img")] "to_name"
    (PyVal.str "img") (by decide) (by decide) (by decide)
  simpa using h

/-- C2, code bug: `BaseTag.xml` never returns normally.  The source calls
`into_xml(self.model_dump(exclude_defaults=no_defaults))` with a single
positional argument, but `into_xml` declares two parameters without default
values, so Python raises `TypeError` on every invocation — the render
operation faults for every schema instance instead of returning the
self-closing element string its own docstring promises. -/
theorem c2_xml_always_faults (className : String) (dump : List (String × PyVal)) :
    BaseTag_xml className dump =
      .error "TypeError: into_xml() missing 1 required positional argument: ignore" := by
  rfl

/-! ## Claims C4 and C9: the Type Resolver -/

/-- C4, counterexample: for a ParamSpec with raw type `boolean=` and an
absent (empty) default capture, the resolved default is the required-value
sentinel string `...`, not the boolean `false` the claim asserts: with no
captured default the `is_opt` flag is off, so the boolean coercion branch
of `convert_arg_types` never runs. -/
theorem c4_counterexample :
    (resolveArg ("boolean=", "x", "", "d")).1 = PyVal.str "..." ∧
    (resolveArg ("boolean=", "x", "", "d")).1 ≠ PyVal.bool false := by
  decide

theorem convert_bool_opt (d : String) :
    convert_arg_types ["boolean"] true d =
      (PyVal.bool ((d == "true") && !(d == "false")), "Optional[bool]") := by
  have hg : tcGet "boolean" = "bool" := by decide
  have hh : tcHas "boolean" = true := by decide
  unfold convert_arg_types
  simp [pyJoin, hg, hh]

/-- C4, amended: for a ParamSpec with raw type token `boolean=`, when the
default capture is present (it contains `=`), the resolved default is the
boolean `true` exactly when the stripped default literal is `true`, and the
boolean `false` for any other literal (including `false` and `1`); when the
default capture is empty/absent, the resolved default is the required-value
sentinel string `...`, not a boolean. -/
theorem c4_boolean_default_amended (nm ds g3 : String) :
    ('=' ∈ g3.data →
      (resolveArg ("boolean=", nm, g3, ds)).1 =
        PyVal.bool (pyStrip (pyStripChars "=" g3) == "true")) ∧
    (g3 = "" → (resolveArg ("boolean=", nm, g3, ds)).1 = PyVal.str "...") := by
  constructor
  · intro hmem
    have htypes : makeTypes ("boolean=", nm, g3, ds) = ["boolean"] := by
      simp [makeTypes]
      decide
    have hopt : makeIsOpt ("boolean=", nm, g3, ds) = true := by
      simp [makeIsOpt, containsChar]
      exact hmem
    have hg3ne : g3 ≠ "" := by
      intro hg
      subst hg
      simp at hmem
    have hdef : makeDefault ("boolean=", nm, g3, ds) =
        pyStrip (pyStripChars "=" g3) := by
      simp [makeDefault, hg3ne]
    rw [resolveArg, htypes, hopt, hdef]
    generalize pyStrip (pyStripChars "=" g3) = d
    rw [convert_bool_opt]
    by_cases hdt : d = "true"
    · subst hdt
      decide
    · have h1 : (d == "true") = false := by
        simp [hdt]
      simp [h1]
  · intro hg
    subst hg
    have htypes : makeTypes ("boolean=", nm, "", ds) = ["boolean"] := by
      simp [makeTypes]
      decide
    have hopt : makeIsOpt ("boolean=", nm, "", ds) = false := by
      simp [makeIsOpt, containsChar]
    have hdef : makeDefault ("boolean=", nm, "", ds) = "..." := by
      simp [makeDefault, hopt]
    rw [resolveArg, htypes, hopt, hdef]
    decide

/-- Witness for C4 at concrete defaults: `=true` resolves to boolean
`true`, and the absent default resolves to the `...` sentinel. -/
theorem c4_boolean_default_witness :
    (resolveArg ("boolean=", "x", "=true", "d")).1 =
      PyVal.bool (pyStrip (pyStripChars "=" "=true") == "true") ∧
    (resolveArg ("boolean=", "y", "", "e")).1 = PyVal.str "..." :=
  ⟨(c4_boolean_default_amended "x" "d" "=true").1 (by decide),
   (c4_boolean_default_amended "y" "e" "").2 rfl⟩

theorem tcGet_mem (t : String) :
    tcGet t ∈ (["str", "int", "float", "bool", "list", "dict", "Callable",
      "None"] : List String) := by
  unfold tcGet
  simp only [TYPE_CONVERT, List.lookup]
  repeat' split <;> simp_all

theorem tcGet_head (t : String) :
    ∃ c cs, (tcGet t).data = c :: cs ∧ c ≠ 'L' ∧ c ≠ 'O' := by
  have h := tcGet_mem t
  simp only [List.mem_cons, List.not_mem_nil, or_false] at h
  rcases h with h | h | h | h | h | h | h | h <;> rw [h] <;>
    exact ⟨_, _, rfl, by decide, by decide⟩

theorem pyJoin_cons_data (sep : String) (x : String) (xs : List String) :
    ∃ rest, (pyJoin sep (x :: xs)).data = x.data ++ rest := by
  cases xs with
  | nil => exact ⟨[], by simp [pyJoin]⟩
  | cons y ys =>
    refine ⟨sep.data ++ (pyJoin sep (y :: ys)).data, ?_⟩
    show (x ++ sep ++ pyJoin sep (y :: ys)).data = _
    simp [String.data_append]

/-- For a member list containing an unknown token, `convert_arg_types`
takes the literal-enumeration branch: a quoted default and the
`Literal[...]` type, optional-wrapped when optional. -/
theorem convert_unknown (ts : List String) (opt : Bool) (d : String)
    (hsome : ts.all tcHas = false) :
    ∃ d2, convert_arg_types ts opt d =
      (PyVal.str (quoted d2),
       (if opt then "Optional[" else "") ++ "Literal[" ++
         pyJoin ", " (ts.map quoted) ++ "]" ++ (if opt then "]" else "")) := by
  unfold convert_arg_types
  rw [hsome]
  simp

/-- A string whose first character is neither `L` nor `O` is not in
literal-enumeration form. -/
theorem not_literalForm_of_head (s : String) (c : Char) (cs : List Char)
    (hdata : s.data = c :: cs) (hcL : c ≠ 'L') (hcO : c ≠ 'O') :
    ¬ takesLiteralForm s := by
  intro hlit
  have hL : "Literal[".data = 'L' :: ['i', 't', 'e', 'r', 'a', 'l', '['] := rfl
  have hO : "Optional[Literal[".data =
      'O' :: ['p', 't', 'i', 'o', 'n', 'a', 'l', '[', 'L', 'i', 't', 'e',
        'r', 'a', 'l', '['] := rfl
  rcases hlit with ⟨r, hr⟩ | ⟨r, hr⟩
  · rw [hdata, hL] at hr
    simp at hr
    exact hcL hr.1
  · rw [hdata, hO] at hr
    simp at hr
    exact hcO hr.1

/-- C9: for every ParamSpec member-token list (nonempty, as `split("|")`
always is) all of whose members are in the primitive vocabulary, the
resolved type never takes the literal-enumeration form; when at least one
member is outside the vocabulary, the resolved type always takes the
literal-enumeration form over the raw member tokens (optional-wrapped when
optional) and the rendered default is always a quoted string literal —
including when the default is a sentinel placeholder. -/
theorem c9_literal_form (ts : List String) (opt : Bool) (d : String)
    (hne : ts ≠ []) :
    (ts.all tcHas = true → ¬ takesLiteralForm (convert_arg_types ts opt d).2) ∧
    (ts.all tcHas = false →
      takesLiteralForm (convert_arg_types ts opt d).2 ∧
      (convert_arg_types ts opt d).2 =
        (if opt then "Optional[" else "") ++ "Literal[" ++
          pyJoin ", " (ts.map quoted) ++ "]" ++ (if opt then "]" else "") ∧
      ∃ d2, (convert_arg_types ts opt d).1 = PyVal.str (quoted d2)) := by
  constructor
  · intro hall
    have hsnd : (convert_arg_types ts opt d).2 = pyJoin "|" (ts.map tcGet) ∨
        (convert_arg_types ts opt d).2 =
          "Optional[" ++ pyJoin "|" (ts.map tcGet) ++ "]" := by
      unfold convert_arg_types
      rw [hall]
      cases opt
      · left
        simp
      · right
        simp
    rcases hts : ts with _ | ⟨t, ts2⟩
    · exact absurd hts hne
    obtain ⟨c, cs, hhead, hcL, hcO⟩ := tcGet_head t
    obtain ⟨rest, hjoin⟩ := pyJoin_cons_data "|" (tcGet t) (ts2.map tcGet)
    have hjdata : (pyJoin "|" ((t :: ts2).map tcGet)).data = c :: (cs ++ rest) := by
      rw [List.map_cons, hjoin, hhead]
      rfl
    rw [hts] at hsnd
    rcases hsnd with hsnd | hsnd
    · exact not_literalForm_of_head _ c (cs ++ rest) (hsnd ▸ hjdata) hcL hcO
    · have hOp : "Optional[".data = 'O' :: ['p', 't', 'i', 'o', 'n', 'a', 'l', '['] := rfl
      have hdata2 : (convert_arg_types (t :: ts2) opt d).2.data =
          'O' :: (['p', 't', 'i', 'o', 'n', 'a', 'l', '['] ++
            ((c :: (cs ++ rest)) ++ "]".data)) := by
        rw [hsnd, String.data_append, String.data_append, hjdata, hOp]
        simp
      intro hlit
      have hL : "Literal[".data = 'L' :: ['i', 't', 'e', 'r', 'a', 'l', '['] := rfl
      have hO : "Optional[Literal[".data =
          'O' :: (['p', 't', 'i', 'o', 'n', 'a', 'l', '['] ++
            ('L' :: ['i', 't', 'e', 'r', 'a', 'l', '['])) := rfl
      rcases hlit with ⟨r, hr⟩ | ⟨r, hr⟩
      · rw [hdata2, hL] at hr
        simp at hr
      · rw [hdata2, hO] at hr
        simp at hr
        exact hcL hr.1
  · intro hsome
    obtain ⟨d2, heq⟩ := convert_unknown ts opt d hsome
    refine ⟨?_, by rw [heq], ⟨d2, by rw [heq]⟩⟩
    rw [heq]
    cases opt
    · left
      refine ⟨(pyJoin ", " (ts.map quoted)).data ++ "]".data, ?_⟩
      simp [String.data_append]
    · right
      refine ⟨(pyJoin ", " (ts.map quoted)).data ++ "]".data ++ "]".data, ?_⟩
      have hsplitlit : ("Optional[Literal[").data =
          ("Optional[").data ++ ("Literal[").data := rfl
      simp [String.data_append, hsplitlit]

/-- Witness for C9: the all-known list `["string"]` is never rendered in
literal form, and the list `["yes", "no"]` with an unknown member is
rendered as an optional literal enumeration with a quoted default even for
the `...` placeholder. -/
theorem c9_literal_form_witness :
    (¬ takesLiteralForm (convert_arg_types ["string"] true "x").2) ∧
    takesLiteralForm (convert_arg_types ["yes", "no"] true "...").2 ∧
    (convert_arg_types ["yes", "no"] true "...").1 =
      PyVal.str (quoted "...") :=
  ⟨(c9_literal_form ["string"] true "x" (by decide)).1 (by decide),
   ((c9_literal_form ["yes", "no"] true "..." (by decide)).2 (by decide)).1,
   by decide⟩

/-! ## Claims C3 and C7: the Schema Emitter -/

theorem makeArgLine_ne_empty (t : ArgTuple) : (makeArgLine t).data ≠ [] := by
  have h4 : INDENT.data = [' ', ' ', ' ', ' '] := rfl
  unfold makeArgLine
  simp [String.data_append, h4]

theorem pyJoin_make_args_ne_empty (t : ArgTuple) (ts : List ArgTuple) :
    pyJoin "\n" (make_args (t :: ts)) ≠ "" := by
  obtain ⟨rest, hjoin⟩ := pyJoin_cons_data "\n" (makeArgLine t) (make_args ts)
  intro h
  have hd := congrArg String.data h
  rw [show make_args (t :: ts) = makeArgLine t :: make_args ts from rfl] at hd
  rw [hjoin] at hd
  rcases List.append_eq_nil.mp (by simpa using hd) with ⟨h1, _⟩
  exact makeArgLine_ne_empty t h1

/-- C3, counterexample: a comment block with a ParamSpec line but no
`@meta_description` marker emits NO SchemaDef at all — the whole
parameter-extraction and emission code of `main()` is nested inside the
`@meta_description` walrus-`if` — contradicting the claim that one
SchemaDef is emitted regardless of whether that marker fired. -/
theorem c3_counterexample :
    argFindall (normComment "* @param {string} [x=a] Desc") ≠ [] ∧
    processComment "Rect" "* @param {string} [x=a] Desc" = Option.none := by
  decide

/-- C3, amended: a SchemaDef is emitted for a comment block iff the
`@meta_description` search matched AND at least one ParamSpec line matched;
and when the description capture strips to empty, the `@meta_title` search
did not match, and ParamSpecs exist, the first line of the comment block
(stripped of `*` delimiters and whitespace) is used as the title. -/
theorem c3_emission_amended (stem g : String) :
    ((processComment stem g).isSome ↔
      ((reSearchCapture "@meta_description" (normComment g)).isSome ∧
        argFindall (normComment g) ≠ [])) ∧
    (∀ cap, reSearchCapture "@meta_description" (normComment g) = some cap →
      pyStrip cap = "" →
      metaTitleOf (normComment g) = Option.none →
      argFindall (normComment g) ≠ [] →
      processComment stem g =
        some ("class " ++ stem ++ "Tag(BaseModel):\n" ++
          (INDENT ++ "\"\"\"\n" ++ INDENT ++
            pyStrip (pyStripChars "*" (firstLineOf (normComment g))) ++ "\n" ++
            INDENT ++ "\"\"\"\n") ++
          pyJoin "\n" (make_args (argFindall (normComment g))) ++ "\n")) := by
  constructor
  · rcases hdesc : reSearchCapture "@meta_description" (normComment g) with _ | cap
    · simp [processComment, hdesc]
    · rcases hargs : argFindall (normComment g) with _ | ⟨t, ts⟩
      · simp [processComment, hdesc, hargs]
      · have hne := pyJoin_make_args_ne_empty t ts
        simp [processComment, hdesc, hargs, hne]
  · intro cap hcap hstrip htitle hargsne
    rcases hargs : argFindall (normComment g) with _ | ⟨t, ts⟩
    · exact absurd hargs hargsne
    have hne := pyJoin_make_args_ne_empty t ts
    simp [processComment, hcap, hargs, hne, htitle, hstrip, pyTruthyOpt]

theorem pyJoin_cons_ne (sep p : String) (xs : List String) (h : xs ≠ []) :
    pyJoin sep (p :: xs) = p ++ sep ++ pyJoin sep xs := by
  cases xs with
  | nil => exact absurd rfl h
  | cons x xs2 => rfl

theorem pyJoin_split_data (sep : String) :
    ∀ (pre : List String) (l : String) (rest : List String), ∃ a,
      (pyJoin sep (pre ++ l :: rest)).data =
        a ++ l.data ++
          (if rest = [] then [] else sep.data ++ (pyJoin sep rest).data) := by
  intro pre
  induction pre with
  | nil =>
    intro l rest
    refine ⟨[], ?_⟩
    cases rest with
    | nil => simp [pyJoin]
    | cons r rs =>
      show (l ++ sep ++ pyJoin sep (r :: rs)).data = _
      simp [String.data_append]
  | cons p pre2 ih =>
    intro l rest
    obtain ⟨a, ha⟩ := ih l rest
    refine ⟨p.data ++ sep.data ++ a, ?_⟩
    have hcons : pre2 ++ l :: rest ≠ [] := by simp
    show (pyJoin sep (p :: (pre2 ++ l :: rest))).data = _
    rw [pyJoin_cons_ne sep p _ hcons, String.data_append, String.data_append, ha]
    simp [List.append_assoc]

/-- C7: duplicate field identifiers are never coalesced.  Whenever the
ParamSpec scan of a comment block yields two tuples with the same cleaned
identifier (in any positions), `make_args` renders one field line per
tuple, keeping both — and both rendered lines occur, in the original
order, inside the joined field block of the emitted SchemaDef. -/
theorem c7_duplicates_retained (c : String) (pre mid post : List ArgTuple)
    (t1 t2 : ArgTuple)
    (hsplit : argFindall (normComment c) = pre ++ t1 :: (mid ++ t2 :: post))
    (_hname : makeArgName t1 = makeArgName t2) :
    make_args (argFindall (normComment c)) =
      make_args pre ++ makeArgLine t1 ::
        (make_args mid ++ makeArgLine t2 :: make_args post) ∧
    ∃ x y z, (pyJoin "\n" (make_args (argFindall (normComment c)))).data =
      x ++ (makeArgLine t1).data ++ y ++ (makeArgLine t2).data ++ z := by
  constructor
  · rw [hsplit]
    simp [make_args]
  · rw [hsplit]
    have hmap : make_args (pre ++ t1 :: (mid ++ t2 :: post)) =
        make_args pre ++ makeArgLine t1 ::
          (make_args mid ++ makeArgLine t2 :: make_args post) := by
      simp [make_args]
    rw [hmap]
    obtain ⟨a, ha⟩ := pyJoin_split_data "\n" (make_args pre) (makeArgLine t1)
      (make_args mid ++ makeArgLine t2 :: make_args post)
    obtain ⟨a2, ha2⟩ := pyJoin_split_data "\n" (make_args mid) (makeArgLine t2)
      (make_args post)
    rw [ha]
    have hne2 : (make_args mid ++ makeArgLine t2 :: make_args post) ≠ [] := by
      simp
    rw [if_neg hne2, ha2]
    refine ⟨a, "\n".data ++ a2,
      (if make_args post = [] then []
       else "\n".data ++ (pyJoin "\n" (make_args post)).data), ?_⟩
    simp [List.append_assoc]

set_option maxRecDepth 8192 in
/-- Witness for C7: a comment block with two `@param` lines for `selected`
with different defaults keeps both rendered field declarations in order. -/
theorem c7_duplicates_retained_witness :
    make_args (argFindall (normComment
        "* @meta_description Choices.\n* @param {boolean=} [selected=true] first choice\n* @param {boolean=} [selected=false] second choice")) =
      make_args [] ++
        makeArgLine ("boolean=", "selected", "=true", " first choice") ::
          (make_args [] ++
            makeArgLine ("boolean=", "selected", "=false", " second choice") ::
              make_args []) ∧
    ∃ x y z, (pyJoin "\n" (make_args (argFindall (normComment
        "* @meta_description Choices.\n* @param {boolean=} [selected=true] first choice\n* @param {boolean=} [selected=false] second choice")))).data =
      x ++ (makeArgLine ("boolean=", "selected", "=true", " first choice")).data ++
        y ++ (makeArgLine ("boolean=", "selected", "=false", " second choice")).data ++ z :=
  c7_duplicates_retained _ [] [] []
    ("boolean=", "selected", "=true", " first choice")
    ("boolean=", "selected", "=false", " second choice")
    (by decide) (by decide)

/-- Witness for C3: a comment whose description capture is empty and whose
title marker is absent falls back to the (delimiter-stripped) first line as
the docstring title, and the emission happens exactly once. -/
theorem c3_emission_witness :
    (processComment "Choice"
        "* Choice Head *\n* @meta_description\n* @param {string} value Choice value").isSome ∧
    processComment "Choice"
        "* Choice Head *\n* @meta_description\n* @param {string} value Choice value" =
      some ("class " ++ "Choice" ++ "Tag(BaseModel):\n" ++
        (INDENT ++ "\"\"\"\n" ++ INDENT ++
          pyStrip (pyStripChars "*" (firstLineOf (normComment
            "* Choice Head *\n* @meta_description\n* @param {string} value Choice value"))) ++
          "\n" ++ INDENT ++ "\"\"\"\n") ++
        pyJoin "\n" (make_args (argFindall (normComment
          "* Choice Head *\n* @meta_description\n* @param {string} value Choice value"))) ++
        "\n") :=
  ⟨(c3_emission_amended "Choice" _).1.mpr ⟨by decide, by decide⟩,
   (c3_emission_amended "Choice" _).2 "" (by decide) (by decide) (by decide)
     (by decide)⟩

/-! ## Claims C5 and C6: the XML Formatter -/

/-- C5: for every input string on which XML parsing fails,
`format_xml_string` returns the parse error formatted as a string beginning
with `Error parsing XML:` — the failure is reported as a returned value.
(The function is total in the embedding: no fault propagates; every
`minidom` parse failure is an `ExpatError`, which the source catches.) -/
theorem c5_parse_failure_reported (s : String) (ind : Nat) (e : String)
    (h : parseXmlDoc s = .error e) :
    format_xml_string s ind = "Error parsing XML: " ++ e ∧
    "Error parsing XML:".data <+: (format_xml_string s ind).data := by
  have heq : format_xml_string s ind = "Error parsing XML: " ++ e := by
    simp [format_xml_string, h]
  refine ⟨heq, ?_⟩
  rw [heq, String.data_append]
  have hsp : "Error parsing XML: ".data = "Error parsing XML:".data ++ [' '] := rfl
  rw [hsp, List.append_assoc]
  exact ⟨[' '] ++ e.data, rfl⟩

/-- Witness for C5: the malformed input `<a><b></a>` fails to parse
(mismatched closing tag) and is reported as an error string, not a fault. -/
theorem c5_parse_failure_witness :
    format_xml_string "<a><b></a>" 4 = "Error parsing XML: " ++ "mismatched tag" ∧
    "Error parsing XML:".data <+: (format_xml_string "<a><b></a>" 4).data :=
  c5_parse_failure_reported "<a><b></a>" 4 "mismatched tag" rfl

/-- C6, counterexample: `format_xml_string("<a><b/></a>")` with the default
indent of four spaces does NOT start with `<a>` — the pretty-printer
prepends an XML declaration line — and does NOT contain the line `<b/>`
indented by four spaces, because `clean_lines` strips each line's leading
whitespace. -/
theorem c6_counterexample :
    format_xml_string "<a><b/></a>" 4 =
      "<?xml version=\"1.0\" ?>\n<a>\n<b/>\n</a>" ∧
    ("<a>".data.isPrefixOf (format_xml_string "<a><b/></a>" 4).data) = false ∧
    ((pySplitlines (format_xml_string "<a><b/></a>" 4)).contains "    <b/>") =
      false := by
  refine ⟨rfl, rfl, rfl⟩

/-- C6, amended: `format_xml_string("<a><b/></a>")` with indent 4 produces
`<?xml version="1.0" ?>\n<a>\n<b/>\n</a>`: a string with no empty lines
that starts with the XML declaration line and contains the line `<b/>`
with its indentation stripped (the per-line cleanup removes the indent the
pretty-printer inserted). -/
theorem c6_format_amended :
    format_xml_string "<a><b/></a>" 4 =
      "<?xml version=\"1.0\" ?>\n<a>\n<b/>\n</a>" ∧
    ((pySplitlines (format_xml_string "<a><b/></a>" 4)).all
      (fun line => line != "")) = true ∧
    ((pySplitlines (format_xml_string "<a><b/></a>" 4)).contains "<b/>") =
      true := by
  refine ⟨rfl, rfl, rfl⟩

end LabelStudioSchema
